import Mathlib

/-!
Verification of the planchecker EXPLAIN-plan parser.

This file shallowly embeds the Go package `plan` (line classifier,
tree builder, node-detail extractor, roll-up and check engine) into
Lean 4 and proves properties of the embedding.

Modelling conventions:
* Go strings are modelled as `List Char` (`Str`); all inputs of
  interest are ASCII, where Go's byte-based slicing coincides with
  character-based slicing.
* Go `float64` values are modelled as `ℚ`; the arithmetic performed
  by the program (sums, differences, comparisons, clamping) is exact
  on the values appearing in plans.
* Go `int`/`int64` are modelled as `Int` (no claim touches overflow).
* Go runtime panics (index out of range, slice bounds) are modelled
  as a distinct error outcome `PErr.panicked`, separate from error
  values returned with `error`.
* Go's `regexp` package implements leftmost-first (Perl-style)
  matching; the small engine below implements exactly that semantics
  by backtracking, with greedy `*`, `{0,1}` and `+`, and numbered
  capture groups.
-/

set_option maxHeartbeats 4000000
set_option maxRecDepth 100000

deriving instance DecidableEq for Except

abbrev Str := List Char

def ls (s : String) : Str := s.data

/-- Go `unicode.IsSpace` restricted to ASCII (used by `strings.TrimSpace`). -/
def goSpace (c : Char) : Bool :=
  c = ' ' || c = '\t' || c = '\n' || c = '\x0b' || c = '\x0c' || c = '\r'

/-- Character class of Go's regexp `\s`, which is `[\t\n\f\r ]`. -/
def perlSpace (c : Char) : Bool :=
  c = ' ' || c = '\t' || c = '\n' || c = '\x0c' || c = '\r'

def trimLeftP (p : Char → Bool) (l : Str) : Str := l.dropWhile p

def trimRightP (p : Char → Bool) (l : Str) : Str := (l.reverse.dropWhile p).reverse

def trimP (p : Char → Bool) (l : Str) : Str := trimRightP p (trimLeftP p l)

/-- Go `strings.TrimSpace`. -/
def trimSpace (l : Str) : Str := trimP goSpace l

/-- Go `strings.TrimRight(l, " ")`. -/
def trimRightSpaces (l : Str) : Str := trimRightP (fun c => c = ' ') l

/-- Go `strings.Trim(l, " ")`. -/
def trimSpaces (l : Str) : Str := trimP (fun c => c = ' ') l

/-- Go `strings.Trim(l, " ->")` (cutset of the three characters). -/
def trimArrow (l : Str) : Str := trimP (fun c => c = ' ' || c = '-' || c = '>') l

/-- Indentation of a line: `len(line) - len(strings.TrimLeft(line, " "))`. -/
def getIndent (l : Str) : Nat := (l.takeWhile (fun c => c = ' ')).length

def isPrefixB : Str → Str → Bool
  | [], _ => true
  | _ :: _, [] => false
  | c :: cs, d :: ds => c = d && isPrefixB cs ds

/-- Substring containment, `strings.Index(hay, pat) > -1`. -/
def containsSub (pat : Str) : Str → Bool
  | [] => isPrefixB pat []
  | c :: t => isPrefixB pat (c :: t) || containsSub pat t

/-- Go `strings.Split` with the separator known non-empty
(`c :: cs`); splits on every non-overlapping occurrence. -/
def splitGo (c : Char) (cs : Str) : Nat → Str → Str → List Str
  | _, [], acc => [acc.reverse]
  | 0, s, acc => [acc.reverse ++ s]
  | f + 1, d :: t, acc =>
    if isPrefixB (c :: cs) (d :: t) then
      acc.reverse :: splitGo c cs f (t.drop cs.length) []
    else
      splitGo c cs f t (d :: acc)

/-- Go `strings.Split(s, sep)` (for empty `sep` Go explodes the
string; that case never occurs in the program).  The fuel
`s.length + 1` is always sufficient: every step of `splitGo`
shortens the string. -/
def splitOnStr (sep : Str) (s : Str) : List Str :=
  match sep with
  | [] => [s]
  | c :: cs => splitGo c cs (s.length + 1) s []

def digitVal (c : Char) : Nat := c.toNat - '0'.toNat

def allDigits (l : Str) : Bool := l.all Char.isDigit

def digitsToNat (l : Str) : Nat := l.foldl (fun a c => a * 10 + digitVal c) 0

/-- Go `strconv.ParseInt(s, 10, 64)` as an optional mathematical
integer (overflow is not modelled; no claim involves it). -/
def parseIntZ (s : Str) : Option Int :=
  match s with
  | '+' :: t => if t ≠ [] ∧ allDigits t then some (digitsToNat t) else none
  | '-' :: t => if t ≠ [] ∧ allDigits t then some (-(digitsToNat t : Int)) else none
  | t => if t ≠ [] ∧ allDigits t then some (digitsToNat t) else none

/-- Go `strconv.ParseFloat(s, 64)` on plain decimal notation, as an
optional rational (plan files contain only plain decimals). -/
def parseFloatQ (s : Str) : Option ℚ :=
  let core : Str → Option ℚ := fun t =>
    match splitOnStr ['.'] t with
    | [a] => if a ≠ [] ∧ allDigits a then some (digitsToNat a) else none
    | [a, b] =>
      if (a ≠ [] ∨ b ≠ []) ∧ allDigits a ∧ allDigits b then
        some ((digitsToNat a : ℚ) + (digitsToNat b : ℚ) / (10 : ℚ) ^ b.length)
      else none
    | _ => none
  match s with
  | '+' :: t => core t
  | '-' :: t => (core t).map (fun q => -q)
  | t => core t

/-- `v, _ := strconv.ParseInt(...)`: the value, `0` when parsing fails. -/
def goIntD (s : Str) : Int := (parseIntZ s).getD 0

/-- `v, _ := strconv.ParseFloat(...)`: the value, `0` when parsing fails. -/
def goFloatD (s : Str) : ℚ := (parseFloatQ s).getD 0

def natToS (n : Nat) : Str := Nat.toDigits 10 n

def intToS (i : Int) : Str := if i < 0 then '-' :: natToS i.natAbs else natToS i.natAbs

/-!
## Regex engine

Leftmost-first (Perl/Go style) backtracking matcher with numbered
capture groups, used to embed the `regexp` patterns of the source.
`star` is greedy; fuel bounds the star-unrolling depth of a single
backtracking branch (each unrolling is required to consume at least
one character, as every starred sub-pattern of the source does, so
`reFuel` is always sufficient).
-/

inductive Rx where
  | eps : Rx
  | ch (p : Char → Bool) : Rx
  | cat (a b : Rx) : Rx
  | alt (a b : Rx) : Rx
  | star (a : Rx) : Rx
  | grp (i : Nat) (a : Rx) : Rx

def rxSize : Rx → Nat
  | .eps => 1
  | .ch _ => 1
  | .cat a b => rxSize a + rxSize b + 1
  | .alt a b => rxSize a + rxSize b + 1
  | .star a => rxSize a + 1
  | .grp _ a => rxSize a + 1

abbrev Caps := Nat → Str

def setCap (caps : Caps) (i : Nat) (v : Str) : Caps :=
  fun j => if j = i then v else caps j

def reMatch : Nat → Rx → Str → Caps → (Str → Caps → Option (Caps × Str)) →
    Option (Caps × Str)
  | 0, _, _, _, _ => none
  | fuel + 1, re, s, caps, k =>
    match re with
    | .eps => k s caps
    | .ch p =>
      match s with
      | [] => none
      | c :: t => if p c then k t caps else none
    | .cat a b => reMatch fuel a s caps (fun t c2 => reMatch fuel b t c2 k)
    | .alt a b =>
      (reMatch fuel a s caps k).orElse (fun _ => reMatch fuel b s caps k)
    | .grp i a =>
      reMatch fuel a s caps (fun t c2 => k t (setCap c2 i (s.take (s.length - t.length))))
    | .star a =>
      (reMatch fuel a s caps (fun t c2 =>
        if t.length < s.length then reMatch fuel (.star a) t c2 k else none)).orElse
      (fun _ => k s caps)

/-- Call-depth budget for `reMatch`; generous: a backtracking branch
contains at most `rxSize` frames between two character consumptions
and at most `s.length` consumptions. -/
def reFuel (re : Rx) (s : Str) : Nat := (rxSize re + 2) * (s.length + 2) * 2

/-- Attempt a match anchored at the start of `s`; on success return
the capture table. -/
def reTryAt (re : Rx) (s : Str) : Option Caps :=
  match reMatch (reFuel re s) re s (fun _ => []) (fun t c => some (c, t)) with
  | some (c, _) => some c
  | none => none

/-- `FindStringSubmatch`: leftmost match, earliest start position
first, backtracking order within a position. -/
def reFindFrom (re : Rx) : Str → Option Caps
  | [] => reTryAt re []
  | c :: t =>
    match reTryAt re (c :: t) with
    | some cp => some cp
    | none => reFindFrom re t

/-- `MatchString`. -/
def reTest (re : Rx) (s : Str) : Bool := (reFindFrom re s).isSome

def rcat (l : List Rx) : Rx := l.foldr Rx.cat Rx.eps

def rstr (s : String) : Rx := rcat (s.data.map (fun c => Rx.ch (fun d => d = c)))

/-- Go regexp `.` (any character except newline). -/
def rAny : Rx := .ch (fun c => !(c = '\n'))

def rDotStar (g : Nat) : Rx := .grp g (.star rAny)

def rDigit : Rx := .ch Char.isDigit

def rDigits1 : Rx := .cat rDigit (.star rDigit)

def rNonSp : Rx := .ch (fun c => !perlSpace c)

def rNonSp1 : Rx := .cat rNonSp (.star rNonSp)

def rWs1 : Rx := .cat (.ch perlSpace) (.star (.ch perlSpace))

def rOpt (a : Rx) : Rx := .alt a .eps

def altList : List Rx → Rx
  | [] => .ch (fun _ => false)
  | [a] => a
  | a :: rest => .alt a (altList rest)

/-!
## Pattern catalog

The `patterns` map and the inline `regexp.MustCompile` patterns of
the source.  Patterns that are plain literals are embedded as
substring tests (regex matching of a literal is substring search).
-/

def nodeRE : Rx := rcat [
  rDotStar 1, rstr " (",
  rOpt (.grp 2 (rcat [rstr "cost=", rDotStar 3, rstr "..", rDotStar 4, rstr " "])),
  rstr "rows=", rDotStar 5, rstr " width=", rDotStar 6, rstr ")"]

def sliceRE : Rx := rcat [rDotStar 1, rstr "  (slice", .grp 2 (.star rDigit)]

def nodeTest (l : Str) : Bool := reTest nodeRE l

def subPlanTest (l : Str) : Bool := containsSub (ls " SubPlan ") l

def sliceStatsTest (l : Str) : Bool := containsSub (ls " Slice statistics:") l

def stmtStatsTest (l : Str) : Bool := containsSub (ls " Statement statistics:") l

def settingsTest (l : Str) : Bool := containsSub (ls " Settings: ") l

def optimizerTest (l : Str) : Bool := containsSub (ls " Optimizer status: ") l

def runtimeTest (l : Str) : Bool := containsSub (ls " Total runtime: ") l

def memCls : Rx := .ch (fun c => c.isDigit || c = '.' || c = '-')

def memUsedRE : Rx := rcat [rstr "Memory used: ", .grp 1 (.cat memCls (.star memCls)), rstr "K bytes"]

def memWantedRE : Rx := rcat [rstr "Memory wanted: ", .grp 1 (.cat memCls (.star memCls)), rstr "K bytes"]

def tableScanRE : Rx := rcat [rstr " Scan ",
  .grp 2 (.alt (rstr "on") (rstr "using")), rstr " ", .grp 3 rNonSp1]

def indexScanRE : Rx := rcat [rstr "Index", .star rAny, rstr "Scan ",
  .grp 1 (.alt (rstr "on") (rstr "using")), rstr " ", .grp 2 rNonSp1]

def rowsAtDestRE : Rx := rcat [.grp 1 rDigits1, rstr " rows at destination"]

def rowsWithRE : Rx := rcat [.grp 1 rDigits1, rstr " rows with ", rNonSp1, rstr " ms"]

def maxRowsRE : Rx := rcat [rstr "Max ", .grp 1 rNonSp1, rstr " rows"]

def msFirstRE : Rx := rcat [rstr " ", .grp 1 rNonSp1, rstr " ms to first row"]

def msEndRE : Rx := rcat [rstr " ", .grp 1 rNonSp1, rstr " ms to end"]

def msOffsetRE : Rx := rcat [rstr "start offset by ", .grp 1 rNonSp1, rstr " ms"]

def avgRowsRE : Rx := rcat [rstr "Avg ", .grp 1 rNonSp1, rstr " "]

def workersRE : Rx := rcat [rstr " x ", .grp 1 rDigits1, rstr " workers"]

def scansRE : Rx := rcat [rstr "of ", .grp 1 rDigits1, rstr " scans"]

def maxSegRE : Rx := rcat [rstr " (", .grp 1 (.cat (rstr "seg") rDigits1), rstr ") "]

def maxRowsParenRE : Rx := rcat [rstr "Max ", .grp 1 rNonSp1, rstr " rows ("]

def actualRowsParenRE : Rx := rcat [rstr " ", .grp 1 rNonSp1, rstr " rows ("]

def avgMemRE : Rx := rcat [rstr "Work_mem used:", rWs1, .grp 1 rDigits1, rstr "K bytes avg"]

def maxMemRE : Rx := rcat [rWs1, .grp 1 rDigits1, rstr "K bytes max"]

def spillRE : Rx := rcat [rstr "(", .grp 1 rDigits1, rstr " spilling,", rWs1,
  .grp 2 rDigits1, rstr " reused)"]

def partSelRE : Rx := rcat [rstr "Partitions selected:  ", .grp 1 rDigits1,
  rstr " (out of ", .grp 2 rDigits1, rstr ")"]

def partScanRE : Rx := rcat [rstr "Partitions scanned:  ", .star (.grp 1 (rstr "Avg ")),
  rDotStar 2, rstr " (out of ", .grp 3 rDigits1, rstr ")"]

def filterRE : Rx := rcat [rstr "Filter: ", rDotStar 1]

def estScanRE : Rx := rcat [.grp 1 (altList [rstr "Dynamic Table", rstr "Table",
  rstr "Parquet table", rstr "Bitmap Index", rstr "Bitmap Append-Only Row-Oriented",
  rstr "Seq"]), rstr " Scan"]

def filterFnRE : Rx := rcat [rNonSp1, rstr "(", .star rAny, rstr ") "]

def motionRE : Rx := rcat [.grp 1 (.alt (rstr "Broadcast") (rstr "Redistribute")),
  rstr " Motion"]

def childPartRE : Rx := rcat [rstr "_", rDigits1, rstr "_prt_"]

/-!
## Data model
-/

structure Setting where
  name : Str
  value : Str
deriving DecidableEq

structure Warning where
  cause : Str
  resolution : Str
deriving DecidableEq

/-- A Node as produced by the single-pass collector (`createNode`):
only indentation, line offset and the raw annotation lines are set. -/
structure PNode where
  indent : Int
  offset : Int
  extraInfo : List Str
deriving DecidableEq

structure PPlan where
  name : Str
  indent : Int
  offset : Int
deriving DecidableEq

/-- The collector state: the `Explain` fields populated by `parseLines`. -/
structure PState where
  nodes : List PNode
  plans : List PPlan
  sliceStats : List Str
  memoryUsed : Int
  memoryWanted : Int
  settings : List Setting
  optimizer : Str
  optimizerStatus : Str
  runtime : ℚ
  planFinished : Bool
deriving DecidableEq

/-- Go zero values of the `Explain` struct fields. -/
def initPState : PState :=
  { nodes := [], plans := [], sliceStats := [], memoryUsed := 0, memoryWanted := 0,
    settings := [], optimizer := [], optimizerStatus := [], runtime := 0,
    planFinished := false }

/-- Parse outcomes other than success: error values returned by the
source (`errors.New`), plus `panicked` for Go runtime panics (index
out of range / slice bounds), which abort instead of returning. -/
inductive PErr where
  | badFirstIndent (line : Str)
  | badIndent (line : Str)
  | noNodes
  | unableToParse
  | stdinEmpty
  | panicked (site : Str)
deriving DecidableEq

def PErr.isPanic : PErr → Bool
  | .panicked _ => true
  | _ => false

/-- The message text of each returned error value (the `fmt.Sprintf`
templates of the source). -/
def errText : PErr → Str
  | .badFirstIndent l =>
    ls "Detected wrong indentation on first plan node:\n" ++ trimRightSpaces l ++
    ls "\n\nRecommend running EXPLAIN again and resubmitting the plan.\nDo not manually adjust the indentation as this will lead to incorrect parsing!\n"
  | .badIndent l =>
    ls "Detected wrong indentation on line:\n" ++ trimRightSpaces l ++
    ls "\n\nRecommend running EXPLAIN again and resubmitting the plan.\nDo not manually adjust the indentation as this will lead to incorrect parsing!\n"
  | .noNodes => ls "Could not find any nodes in plan"
  | .unableToParse => ls "Unable to parse node"
  | .stdinEmpty => ls "stdin is empty"
  | .panicked site => ls "runtime error: " ++ site

/-!
## Line classifier and single-pass collector (`parseLines` / `parseline`)
-/

/-- `checkQuote`: drops the first and the last two characters and
prepends a space when the first character is `"` and the
second-to-last character is `"` (the source tests
`line[len(line)-2 : len(line)-1]`). -/
def checkQuote (l : Str) : Str :=
  if 2 < l.length ∧ l.getD 0 ' ' = '"' ∧ l.getD (l.length - 2) ' ' = '"' then
    ' ' :: (l.drop 1).take (l.length - 3)
  else l

def parseSettings (st : PState) (line : Str) : Except PErr PState :=
  let st := { st with planFinished := true }
  let t := trimSpace line
  if t.length < 11 then .error (.panicked (ls "slice bounds out of range"))
  else
    (splitOnStr (ls "; ") (t.drop 11)).foldlM (fun acc piece =>
      match splitOnStr (ls "=") piece with
      | n :: v :: _ =>
        Except.ok { acc with
          settings := acc.settings ++ [⟨n, v⟩],
          optimizer := if n = ls "optimizer" then v else acc.optimizer }
      | _ => Except.error (.panicked (ls "index out of range"))) st

def parseOptimizer (st : PState) (line : Str) : Except PErr PState :=
  let st := { st with planFinished := true }
  let t := trimSpace line
  if t.length < 11 then .error (.panicked (ls "slice bounds out of range"))
  else
    match splitOnStr (ls ": ") (t.drop 11) with
    | _ :: v :: _ => .ok { st with optimizerStatus := v }
    | _ => .error (.panicked (ls "index out of range"))

def parseRuntime (st : PState) (line : Str) : Except PErr PState :=
  let st := { st with planFinished := true }
  match splitOnStr (ls " ") (trimSpace line) with
  | _ :: _ :: c :: _ =>
    .ok { st with runtime := match parseFloatQ c with | some q => q | none => st.runtime }
  | _ => .error (.panicked (ls "index out of range"))

/-- The consume-while-deeper-indented run shared by the two
block-aggregate handlers: the lines after `off` with indentation
greater than 1, and the number of lines the outer loop is to skip.
When the run reaches the end of the input the source leaves the loop
offset unchanged (the block's lines are then reprocessed — preserved
faithfully). -/
def consumeRun (clines : List Str) (off : Nat) : List Str × Nat :=
  let rest := clines.drop (off + 1)
  let consumed := rest.takeWhile (fun l => 1 < getIndent l)
  (consumed, if consumed.length = rest.length then 0 else consumed.length)

def parseSliceStats (clines : List Str) (off : Nat) (st : PState) : PState × Nat :=
  let r := consumeRun clines off
  ({ st with planFinished := true,
             sliceStats := st.sliceStats ++ r.1.map trimSpace }, r.2)

/-- One line of the statement-statistics block: populate memory
used/wanted when the corresponding pattern matches. -/
def memStatLine (acc : PState) (l : Str) : PState :=
  match reFindFrom memUsedRE l with
  | some c => { acc with memoryUsed := goIntD (trimSpace (c 1)) }
  | none =>
    match reFindFrom memWantedRE l with
    | some c => { acc with memoryWanted := goIntD (trimSpace (c 1)) }
    | none => acc

def parseStatementStats (clines : List Str) (off : Nat) (st : PState) : PState × Nat :=
  let r := consumeRun clines off
  (r.1.foldl memStatLine
    { st with planFinished := true, memoryUsed := -1, memoryWanted := -1 }, r.2)

def appendToLastNode (ns : List PNode) (line : Str) : List PNode :=
  match ns.getLast? with
  | none => ns
  | some last => ns.dropLast ++ [{ last with extraInfo := last.extraInfo ++ [line] }]

/-- `createPlan`, applied to either the literal `"Plan"` (for the
implicit top-level plan) or a SubPlan header line. -/
def createPlan (l : Str) (off : Nat) : PPlan :=
  { name := trimSpaces l, indent := (getIndent l : Int), offset := (off : Int) }

/-- The discard condition of `parseline`: blank line, a line
containing `QUERY PLAN`, or a line whose first character is a dash. -/
def isDiscard (line : Str) : Bool :=
  decide (trimSpace line = []) || containsSub (ls "QUERY PLAN") line ||
    decide (line.getD 0 ' ' = '-')

/-- The node branch of `parseline`: create the node, enforce the two
indentation rules, and on the very first node also create the
implicit top-level plan. -/
def nodeBranchStep (off : Nat) (st : PState) (line : Str) :
    Except PErr (PState × Nat) :=
  let newNode : PNode := { indent := (getIndent line : Int), offset := (off : Int),
                           extraInfo := [line] }
  if st.nodes.isEmpty && decide (1 < newNode.indent) then
    .error (.badFirstIndent line)
  else if !st.nodes.isEmpty && decide (newNode.indent < 2) then
    .error (.badIndent line)
  else
    let plans' := if st.nodes.isEmpty then st.plans ++ [createPlan (ls "Plan") off]
                  else st.plans
    .ok ({ st with nodes := st.nodes ++ [newNode], plans := plans' }, 0)

/-- One iteration of the `parseline` dispatch; returns the new state
and the number of extra lines the outer loop skips. -/
def parseLineStep (clines : List Str) (off : Nat) (st : PState) :
    Except PErr (PState × Nat) :=
  let line := clines.getD off []
  if isDiscard line then .ok (st, 0)
  else if nodeTest line then nodeBranchStep off st line
  else if subPlanTest line then
    .ok ({ st with plans := st.plans ++ [createPlan line off] }, 0)
  else if sliceStatsTest line then .ok (parseSliceStats clines off st)
  else if stmtStatsTest line then .ok (parseStatementStats clines off st)
  else if settingsTest line then (parseSettings st line).map (fun s => (s, 0))
  else if optimizerTest line then (parseOptimizer st line).map (fun s => (s, 0))
  else if runtimeTest line then (parseRuntime st line).map (fun s => (s, 0))
  else if decide (1 < getIndent line) && !st.planFinished then
    .ok ({ st with nodes := appendToLastNode st.nodes line }, 0)
  else .ok (st, 0)

/-- The line loop of `parseLines`.  The offset strictly increases on
every iteration, so fuel `clines.length + 1` always runs the loop to
completion. -/
def parseLoopF : Nat → List Str → Nat → PState → Except PErr PState
  | 0, _, _, st => .ok st
  | f + 1, clines, off, st =>
    if off < clines.length then
      match parseLineStep clines off st with
      | .error e => .error e
      | .ok (st', k) => parseLoopF f clines (off + 1 + k) st'
    else .ok st

def parseLines (lines : List Str) : Except PErr PState :=
  let clines := lines.map checkQuote
  parseLoopF (clines.length + 1) clines 0 initPState

/-!
## Tree builder (`BuildTree`)

The source reconciles the flat `Nodes`/`Plans` lists into a tree by
mutating pointer fields.  The embedding is an arena: nodes and plans
are addressed by their list index, and `BuildTree` computes the edge
sets (`subNodes`, `subPlans` per node index, `planTop` per plan
index; `none` models the dummy zero `Node` installed by
`createPlan`).
-/

def pnodeD : PNode := { indent := 0, offset := 0, extraInfo := [] }

def pplanD : PPlan := { name := [], indent := 0, offset := 0 }

def nodeAtP (ns : List PNode) (i : Nat) : PNode := ns.getD i pnodeD

def planAtP (ps : List PPlan) (p : Nat) : PPlan := ps.getD p pplanD

/-- Scan indices `k-1, k-2, …, 0` and return the first (that is, the
largest) index satisfying the predicate — the backward scans of
`BuildTree`. -/
def findRevAux (pred : Nat → Bool) : Nat → Option Nat
  | 0 => none
  | k + 1 => if pred k then some k else findRevAux pred k

def modifyAt {α : Type} (f : α → α) : Nat → List α → List α
  | _, [] => []
  | 0, x :: xs => f x :: xs
  | i + 1, x :: xs => x :: modifyAt f i xs

structure TreeOut where
  subNodes : List (List Nat)
  subPlans : List (List Nat)
  planTop : List (Option Nat)
deriving DecidableEq

/-- First pass: the parent node of a plan — the last node (by list
position) that is both shallower and earlier than the plan. -/
def planParent (nodes : List PNode) (pl : PPlan) : Option Nat :=
  findRevAux (fun p =>
    decide ((nodeAtP nodes p).indent < pl.indent ∧ (nodeAtP nodes p).offset < pl.offset))
    nodes.length

def buildPlansPass (nodes : List PNode) (plans : List PPlan) :
    Nat → List (List Nat) → List (List Nat)
  | 0, acc => acc
  | i + 1, acc =>
    let acc' := match planParent nodes (planAtP plans i) with
      | some p => modifyAt (fun lst => i :: lst) p acc
      | none => acc
    buildPlansPass nodes plans i acc'

/-- Second pass, plan-top test for node `i`: the last plan with
`node.indent - 2 == plan.indent && node.offset - 1 == plan.offset`. -/
def planTopSlot (nodes : List PNode) (plans : List PPlan) (i : Nat) : Option Nat :=
  findRevAux (fun p =>
    decide ((nodeAtP nodes i).indent - 2 = (planAtP plans p).indent ∧
            (nodeAtP nodes i).offset - 1 = (planAtP plans p).offset))
    plans.length

/-- Second pass, parent-node test for node `i`: the nearest preceding
node (by list position) with strictly smaller indentation. -/
def nodeParent (nodes : List PNode) (i : Nat) : Option Nat :=
  findRevAux (fun q =>
    decide ((nodeAtP nodes q).indent < (nodeAtP nodes i).indent)) i

/-- What the second pass of `BuildTree` does with one node. -/
inductive Disp where
  | topOf (p : Nat)
  | childOf (q : Nat)
  | rootDefault
deriving DecidableEq

def nodeDisp (nodes : List PNode) (plans : List PPlan) (i : Nat) : Disp :=
  match planTopSlot nodes plans i with
  | some p => .topOf p
  | none =>
    match nodeParent nodes i with
    | some q => .childOf q
    | none => .rootDefault

def applyDisp (i : Nat) (d : Disp) (tr : TreeOut) : TreeOut :=
  match d with
  | .topOf p => { tr with planTop := tr.planTop.set p (some i) }
  | .childOf q => { tr with subNodes := modifyAt (fun lst => i :: lst) q tr.subNodes }
  | .rootDefault => { tr with planTop := tr.planTop.set 0 (some i) }

def buildNodesPass (nodes : List PNode) (plans : List PPlan) : Nat → TreeOut → TreeOut
  | 0, tr => tr
  | i + 1, tr => buildNodesPass nodes plans i (applyDisp i (nodeDisp nodes plans i) tr)

def BuildTree (nodes : List PNode) (plans : List PPlan) : TreeOut :=
  let base : TreeOut :=
    { subNodes := List.replicate nodes.length [],
      subPlans := buildPlansPass nodes plans plans.length (List.replicate nodes.length []),
      planTop := List.replicate plans.length none }
  buildNodesPass nodes plans nodes.length base

/-!
## Node detail extractor (`parseNodeExtraInfo`)
-/

/-- The fully populated Node record (Go `Node`, minus the pointer
fields `SubNodes`/`SubPlans`, which live in `TreeOut`).  Defaults are
the Go zero values. -/
structure ENode where
  indent : Int := 0
  offset : Int := 0
  operator : Str := []
  obj : Str := []
  objType : Str := []
  slice : Int := 0
  startupCost : ℚ := 0
  totalCost : ℚ := 0
  nodeCost : ℚ := 0
  prctCost : ℚ := 0
  rows : Int := 0
  width : Int := 0
  actualRows : ℚ := 0
  avgRows : ℚ := 0
  workers : Int := 0
  maxRows : ℚ := 0
  maxSeg : Str := []
  scans : Int := 0
  msFirst : ℚ := 0
  msEnd : ℚ := 0
  msOffset : ℚ := 0
  msNode : ℚ := 0
  msPrct : ℚ := 0
  avgMem : ℚ := 0
  maxMem : ℚ := 0
  execMemLine : ℚ := 0
  spillFile : Int := 0
  spillReuse : Int := 0
  partSelected : Int := 0
  partSelectedTotal : Int := 0
  partScanned : Int := 0
  partScannedTotal : Int := 0
  filter : Str := []
  extraInfo : List Str := []
  warnings : List Warning := []
  isAnalyzed : Bool := false
deriving DecidableEq

/-- Go `int64(f)` for `f : float64`: truncation toward zero. -/
def int64OfFloat (q : ℚ) : Int := q.num.tdiv (q.den : Int)

/-- The `// ROWS` block of the annotation-line loop, entered only for
lines containing `ms to end`. -/
def timeGroup (n0 : ENode) (line : Str) : ENode :=
  let n := { n0 with isAnalyzed := true }
  let n := match reFindFrom rowsAtDestRE line with
    | some c => match parseFloatQ (c 1) with
      | some q => { n with actualRows := q } | none => n
    | none => n
  let n := match reFindFrom rowsWithRE line with
    | some c => match parseFloatQ (c 1) with
      | some q => { n with actualRows := q } | none => n
    | none => n
  let n := match reFindFrom maxRowsRE line with
    | some c => match parseFloatQ (c 1) with
      | some q => { n with maxRows := q } | none => n
    | none => n
  let n := match reFindFrom msFirstRE line with
    | some c => match parseFloatQ (c 1) with
      | some q => { n with msFirst := q } | none => n
    | none => n
  let n := match reFindFrom msEndRE line with
    | some c => match parseFloatQ (c 1) with
      | some q => { n with msEnd := q } | none => n
    | none => n
  let n := match reFindFrom msOffsetRE line with
    | some c => match parseFloatQ (c 1) with
      | some q => { n with msOffset := q } | none => n
    | none => n
  let n := match reFindFrom avgRowsRE line with
    | some c => match parseFloatQ (c 1) with
      | some q => { n with avgRows := q } | none => n
    | none => n
  let n := match reFindFrom workersRE line with
    | some c => match parseIntZ (c 1) with
      | some v => { n with workers := v } | none => n
    | none => n
  let n := match reFindFrom scansRE line with
    | some c => match parseIntZ (c 1) with
      | some v => { n with scans := v } | none => n
    | none => n
  let n := match reFindFrom maxSegRE line with
    | some c => { n with maxSeg := c 1 }
    | none => n
  match reFindFrom maxRowsParenRE line with
  | some c =>
    match parseFloatQ (c 1) with
    | some q => { n with maxRows := q } | none => n
  | none =>
    match reFindFrom actualRowsParenRE line with
    | some c =>
      match parseFloatQ (c 1) with
      | some q => { n with actualRows := q } | none => n
    | none => n

/-- The `// MEMORY` block, entered only for lines containing
`Work_mem used`. -/
def memGroup (n0 : ENode) (line : Str) : ENode :=
  let n := match reFindFrom avgMemRE line with
    | some c => match parseFloatQ (c 1) with
      | some q => { n0 with avgMem := q } | none => n0
    | none => n0
  match reFindFrom maxMemRE line with
  | some c => match parseFloatQ (c 1) with
    | some q => { n with maxMem := q } | none => n
  | none => n

/-- Processing of one annotation line (the body of the loop over
`n.ExtraInfo[1:]`). -/
def extraInfoLine (n0 : ENode) (line : Str) : ENode :=
  let n := if containsSub (ls "ms to end") line then timeGroup n0 line else n0
  let n := if containsSub (ls "Work_mem used") line then memGroup n line else n
  let n := match reFindFrom spillRE line with
    | some c => { n with spillFile := goIntD (trimSpace (c 1)),
                         spillReuse := goIntD (trimSpace (c 2)) }
    | none => n
  let n := match reFindFrom partSelRE line with
    | some c => { n with partSelected := goIntD (trimSpace (c 1)),
                         partSelectedTotal := goIntD (trimSpace (c 2)) }
    | none => n
  let n := match reFindFrom partScanRE line with
    | some c => { n with partScanned := int64OfFloat (goFloatD (trimSpace (c 2))),
                         partScannedTotal := goIntD (trimSpace (c 3)) }
    | none => n
  match reFindFrom filterRE line with
  | some c => { n with filter := c 1 }
  | none => n

def parseNodeExtraInfo (pn : PNode) : Except PErr ENode :=
  let line := pn.extraInfo.getD 0 []
  match reFindFrom nodeRE line with
  | none => .error .unableToParse
  | some caps =>
    let g1 := trimArrow (caps 1)
    let opSlice : Str × Int :=
      match reFindFrom sliceRE g1 with
      | some sc => (trimSpace (sc 1), goIntD (trimSpace (sc 2)))
      | none => (trimSpace g1, -1)
    let objT : Str × Str :=
      let t1 : Str × Str :=
        match reFindFrom tableScanRE opSlice.1 with
        | some c => (c 3, ls "TABLE")
        | none => ([], [])
      match reFindFrom indexScanRE opSlice.1 with
      | some c => (c 2, ls "INDEX")
      | none => t1
    let base : ENode :=
      { indent := pn.indent, offset := pn.offset, extraInfo := pn.extraInfo,
        operator := opSlice.1, slice := opSlice.2, obj := objT.1, objType := objT.2,
        startupCost := goFloatD (trimSpace (caps 3)),
        totalCost := goFloatD (trimSpace (caps 4)),
        rows := goIntD (trimSpace (caps 5)),
        width := goIntD (trimSpace (caps 6)),
        actualRows := -1, avgRows := -1, workers := -1, maxRows := -1,
        maxSeg := ls "-", scans := -1, msFirst := -1, msEnd := -1, msOffset := -1,
        avgMem := -1, maxMem := -1, execMemLine := -1, spillFile := -1,
        spillReuse := -1, partSelected := -1, partSelectedTotal := -1,
        partScanned := -1, partScannedTotal := -1, filter := [], isAnalyzed := false }
    let n := (pn.extraInfo.drop 1).foldl extraInfoLine base
    .ok (if n.msFirst = -1 then { n with msFirst := n.msEnd } else n)

def extractAll : List PNode → Except PErr (List ENode)
  | [] => .ok []
  | p :: rest =>
    match parseNodeExtraInfo p with
    | .error e => .error e
    | .ok n =>
      match extractAll rest with
      | .error e => .error e
      | .ok ns => .ok (n :: ns)

/-!
## Roll-up & attribution and insert-node fixup
-/

def enodeD : ENode := {}

def nodeAtE (ns : List ENode) (i : Nat) : ENode := ns.getD i enodeD

/-- The total cost of a plan's top node; `none` models the dummy zero
`Node` created by `createPlan`, whose `TotalCost` is `0`. -/
def planTopCost (ns : List ENode) (tr : TreeOut) (p : Nat) : ℚ :=
  match tr.planTop.getD p none with
  | some j => (nodeAtE ns j).totalCost
  | none => 0

/-- `Node.CalculateSubNodeDiff` for the node at arena index `i`. -/
def CalculateSubNodeDiff (ns : List ENode) (tr : TreeOut) (i : Nat) : ENode :=
  let n := nodeAtE ns i
  let msChild := (tr.subNodes.getD i []).foldl
    (fun acc j => acc + (nodeAtE ns j).msEnd) 0
  let costChild := (tr.subNodes.getD i []).foldl
    (fun acc j => acc + (nodeAtE ns j).totalCost) 0
  let costChild := (tr.subPlans.getD i []).foldl
    (fun acc p => acc + planTopCost ns tr p) costChild
  let msNode := n.msEnd - msChild
  let nodeCost := n.totalCost - costChild
  let msNode := if msNode < 0 then 0 else msNode
  let nodeCost := if nodeCost < 0 then 0 else nodeCost
  { n with msNode := msNode, nodeCost := nodeCost }

/-- `Node.CalculatePercentage`.  Rational division by zero is `0`
where Go float division yields `±Inf`/`NaN` — the reference behavior
on an all-zero-cost plan is undefined and no claim involves it. -/
def CalculatePercentage (n : ENode) (totalCost totalMs : ℚ) : ENode :=
  { n with prctCost := n.nodeCost / totalCost * 100,
           msPrct := n.msNode / totalMs * 100 }

/-- The insert-node fixup of `InitPlan`: when the first node shows
zero total cost and a second node exists, copy its cost/time fields. -/
def fixupInsert (ns : List ENode) : List ENode :=
  if (nodeAtE ns 0).totalCost = 0 ∧ 2 ≤ ns.length then
    let n0 := nodeAtE ns 0
    let n1 := nodeAtE ns 1
    ns.set 0 { n0 with totalCost := n1.totalCost, startupCost := n1.startupCost,
                       msEnd := n1.msEnd, msOffset := n1.msOffset,
                       isAnalyzed := n1.isAnalyzed }
  else ns

/-!
## Check engine (`NODECHECKS` / `EXPLAINCHECKS`)
-/

def addWarning (n : ENode) (c r : Str) : ENode :=
  { n with warnings := n.warnings ++ [⟨c, r⟩] }

def checkNodeEstimatedRows (n : ENode) : ENode :=
  if reTest estScanRE n.operator then
    if n.rows = 1 then
      let warningAction : Str :=
        if n.objType = ls "TABLE" then ls "ANALYZE on table"
        else if n.objType = ls "INDEX" then ls "REINDEX on index"
        else []
      if n.isAnalyzed = true then
        if 1 < n.actualRows ∨ 1 < n.avgRows then
          addWarning n (ls "Actual rows is higher than estimated rows")
            (ls "Need to run " ++ warningAction ++ ls " \"" ++ n.obj ++ ls "\"")
        else n
      else
        addWarning n (ls "Estimated rows is 1")
          (ls "May need to run " ++ warningAction ++ ls " \"" ++ n.obj ++ ls "\"")
    else n
  else n

def checkNodeNestedLoop (n : ENode) : ENode :=
  if containsSub (ls "Nested Loop") n.operator then
    addWarning n (ls "Nested Loop") (ls "Review query")
  else n

def checkNodeSpilling (n : ENode) : ENode :=
  if 1 ≤ n.spillFile then
    addWarning n (ls "Total " ++ intToS n.spillFile ++ ls " spilling segments found")
      (ls "Review query")
  else n

def checkNodeScans (n : ENode) : ENode :=
  if 1 < n.scans then
    addWarning n (ls "This node is executed " ++ intToS n.scans ++ ls " times")
      (ls "Review query")
  else n

/-- Go `int64` division truncates toward zero (`Int.tdiv`).  Go
panics when the divisor is zero; that corner is not modelled and not
exercised by any claim. -/
def goIntDiv (a b : Int) : Int := a.tdiv b

def checkNodePartitionScans (subNodeCount : Nat) (n : ENode) : ENode :=
  let pT : Int := 100
  let pPT : Int := 25
  let n :=
    if containsSub (ls "Append") n.operator then
      if pT ≤ (subNodeCount : Int) then
        addWarning n (ls "Detected " ++ natToS subNodeCount ++ ls " partition scans")
          (ls "Check if partitions can be eliminated")
      else n
    else n
  let n :=
    if containsSub (ls "Partition Selector") n.operator ∧ -1 < n.partSelected then
      let n :=
        if pT ≤ n.partSelected then
          addWarning n (ls "Detected " ++ intToS n.partSelected ++ ls " partition scans")
            (ls "Check if partitions can be eliminated")
        else n
      if n.partSelected = 0 then
        addWarning n (ls "Zero partitions selected") (ls "Review query")
      else if pPT ≤ goIntDiv (n.partSelected * 100) n.partSelectedTotal then
        addWarning n (intToS (goIntDiv (n.partSelected * 100) n.partSelectedTotal) ++
            ls "% (" ++ intToS n.partSelected ++ ls " out of " ++
            intToS n.partSelectedTotal ++ ls ") partitions selected")
          (ls "Check if partitions can be eliminated")
      else n
    else n
  if containsSub (ls "Dynamic Table Scan") n.operator ∧ -1 < n.partScanned then
    let n :=
      if pT ≤ n.partScanned then
        addWarning n (ls "Detected " ++ intToS n.partScanned ++ ls " partition scans")
          (ls "Check if partitions can be eliminated")
      else n
    if n.partScanned = 0 then
      addWarning n (ls "Zero partitions scanned") (ls "Review query")
    else if pPT ≤ goIntDiv (n.partScanned * 100) n.partScannedTotal then
      addWarning n (intToS (goIntDiv (n.partScanned * 100) n.partScannedTotal) ++
          ls "% (" ++ intToS n.partScanned ++ ls " out of " ++
          intToS n.partScannedTotal ++ ls ") partitions scanned")
        (ls "Check if partitions can be eliminated")
    else n
  else n

def checkNodeDataSkew (n : ENode) : ENode :=
  let threshold : ℚ := 10000
  if threshold ≤ n.actualRows ∨ threshold ≤ n.avgRows then
    if 0 < n.avgRows then
      if n.avgRows * (n.workers : ℚ) / 2 < n.maxRows ∧ 2 < n.workers then
        addWarning n (ls "Data skew on segment " ++ n.maxSeg) (ls "Review query")
      else n
    else if 0 < n.actualRows ∧ n.maxSeg ≠ ls "-" then
      addWarning n (ls "Data skew on segment " ++ n.maxSeg) (ls "Review query")
    else n
  else n

def checkNodeFilterWithFunction (n : ENode) : ENode :=
  if reTest filterFnRE n.filter then
    addWarning n (ls "Filter using function") (ls "Check if function can be avoided")
  else n

/-- All node checks in catalog order. -/
def runNodeChecks (subNodeCount : Nat) (n : ENode) : ENode :=
  checkNodeFilterWithFunction (checkNodeDataSkew (checkNodePartitionScans subNodeCount
    (checkNodeScans (checkNodeSpilling (checkNodeNestedLoop (checkNodeEstimatedRows n))))))

/-- The per-node pass of `InitPlan`'s second loop: roll-up,
percentage attribution, then the node checks, for node `i`. -/
def rollupAt (tr : TreeOut) (c0 m0 : ℚ) (ns : List ENode) (i : Nat) : List ENode :=
  let n := CalculateSubNodeDiff ns tr i
  let n := CalculatePercentage n c0 m0
  let n := runNodeChecks (tr.subNodes.getD i []).length n
  ns.set i n

def rollupFrom (tr : TreeOut) (c0 m0 : ℚ) : Nat → Nat → List ENode → List ENode
  | 0, _, ns => ns
  | f + 1, i, ns =>
    if i < ns.length then rollupFrom tr c0 m0 f (i + 1) (rollupAt tr c0 m0 ns i)
    else ns

/-- The `Explain` object at the end of `InitPlan`. -/
structure EState where
  nodes : List ENode
  plans : List PPlan
  tree : TreeOut
  sliceStats : List Str
  memoryUsed : Int
  memoryWanted : Int
  settings : List Setting
  optimizer : Str
  optimizerStatus : Str
  runtime : ℚ
  warnings : List Warning
deriving DecidableEq

def checkExplainMotionCount (e : EState) : EState :=
  let motionCount := (e.nodes.filter (fun n => reTest motionRE n.operator)).length
  if 5 ≤ motionCount then
    { e with warnings := e.warnings ++
        [⟨ls "Found " ++ natToS motionCount ++ ls " Redistribute/Broadcast motions",
          ls "Review query"⟩] }
  else e

def checkExplainSliceCount (e : EState) : EState :=
  let sliceCount := (e.nodes.filter (fun n => -1 < n.slice)).length
  if 100 < sliceCount then
    { e with warnings := e.warnings ++
        [⟨ls "Found " ++ natToS sliceCount ++ ls " slices", ls "Review query"⟩] }
  else e

def checkExplainPlannerFallback (e : EState) : EState :=
  if containsSub (ls "legacy query optimizer") e.optimizerStatus then
    if e.settings.any (fun s => s.name = ls "optimizer" ∧ s.value = ls "on") then
      { e with warnings := e.warnings ++
          [⟨ls "ORCA enabled but plan was produced by legacy query optimizer",
            ls "No Action Required"⟩] }
    else e
  else e

/-- The documented default values of the `enable_*` GUCs. -/
def gucDefault (name : Str) : Option Str :=
  if name = ls "enable_bitmapscan" then some (ls "on")
  else if name = ls "enable_groupagg" then some (ls "on")
  else if name = ls "enable_hashagg" then some (ls "on")
  else if name = ls "enable_hashjoin" then some (ls "on")
  else if name = ls "enable_indexscan" then some (ls "on")
  else if name = ls "enable_seqscan" then some (ls "on")
  else if name = ls "enable_sort" then some (ls "on")
  else if name = ls "enable_tidscan" then some (ls "on")
  else if name = ls "enable_nestloop" then some (ls "off")
  else if name = ls "enable_mergejoin" then some (ls "off")
  else none

def checkExplainEnableGucNonDefault (e : EState) : EState :=
  e.settings.foldl (fun acc s =>
    if containsSub (ls "enable_") s.name then
      match gucDefault s.name with
      | some v =>
        if s.value ≠ v then
          { acc with warnings := acc.warnings ++
              [⟨ls "\"" ++ s.name ++ ls "\" GUC has non-default value \"" ++
                 s.value ++ ls "\"",
                ls "Check if \"" ++ s.name ++ ls "\" GUC is required"⟩] }
        else acc
      | none => acc
    else acc) e

def checkExplainOrcaChildPartitionScan (e : EState) : EState :=
  if e.optimizer ≠ ls "on" then e
  else
    { e with nodes := e.nodes.map (fun n =>
        if reTest childPartRE n.operator then
          addWarning n (ls "Scan on what appears to be a child partition")
            (ls "Recommend using root partition when ORCA is enabled")
        else n) }

def runExplainChecks (e : EState) : EState :=
  checkExplainOrcaChildPartitionScan (checkExplainEnableGucNonDefault
    (checkExplainPlannerFallback (checkExplainSliceCount (checkExplainMotionCount e))))

/-!
## Entry points (`InitPlan`, `InitFromString`, `InitFromStdin`)
-/

/-- `InitPlan` on the already-split line list. -/
def InitPlan (lines : List Str) : Except PErr EState :=
  match parseLines lines with
  | .error e => .error e
  | .ok st =>
    if st.nodes.length = 0 then .error .noNodes
    else
      let tr := BuildTree st.nodes st.plans
      match extractAll st.nodes with
      | .error e => .error e
      | .ok ens =>
        let ens := fixupInsert ens
        let c0 := (nodeAtE ens 0).totalCost
        let m0 := (nodeAtE ens 0).msEnd
        let ens := rollupFrom tr c0 m0 ens.length 0 ens
        let e0 : EState :=
          { nodes := ens, plans := st.plans, tree := tr,
            sliceStats := st.sliceStats, memoryUsed := st.memoryUsed,
            memoryWanted := st.memoryWanted, settings := st.settings,
            optimizer := st.optimizer, optimizerStatus := st.optimizerStatus,
            runtime := st.runtime, warnings := [] }
        .ok (runExplainChecks e0)

def splitNl (s : Str) : List Str := splitOnStr ['\n'] s

/-- `InitPlan` on the raw text (`strings.Split(plantext, "\n")`). -/
def InitPlanText (text : Str) : Except PErr EState := InitPlan (splitNl text)

/-- `InitFromString`: returns the `InitPlan` outcome unchanged. -/
def InitFromString (text : Str) : Except PErr EState := InitPlanText text

/-- `InitFromStdin` given the stdin contents: rejects empty stdin,
then calls `InitPlan` and DISCARDS its result, returning success
unconditionally — a faithful model of the source, which ignores the
`InitPlan` return value. -/
def InitFromStdin (stdinData : Str) : Except PErr Unit :=
  if stdinData.length = 0 then .error .stdinEmpty
  else
    let _ := InitPlanText stdinData
    .ok ()

/-- The first input line matching the node shape (after the
quote-stripping every line undergoes), used to state C5. -/
def firstNodeShapeLine (lines : List Str) : Option Str :=
  (lines.map checkQuote).find? nodeTest

/-!
## Concrete inputs used by the claims
-/

/-- C1's plan with the settings line exactly as the claim writes it
(single space after the label). -/
def c1badLines : List Str := [
  ls " Gather Motion 2:1  (slice1; segments: 2)  (cost=0.00..431.00 rows=1 width=8)",
  ls "   ->  Seq Scan on t1  (cost=0.00..431.00 rows=1 width=8)",
  ls " Settings: enable_hashjoin=off; optimizer=on"]

/-- C1's plan with the settings line in the layout the source's
fixed-width prefix strip expects (two spaces after the label). -/
def c1goodLines : List Str := [
  ls " Gather Motion 2:1  (slice1; segments: 2)  (cost=0.00..431.00 rows=1 width=8)",
  ls "   ->  Seq Scan on t1  (cost=0.00..431.00 rows=1 width=8)",
  ls " Settings:  enable_hashjoin=off; optimizer=on"]

/-- C4's two-line fragment exactly as the claim writes it. -/
def c4badLines : List Str := [
  ls "Insert (rows=100 width=4)",
  ls "-> Seq Scan on t1 (cost=0.00..50.00 rows=100 width=4)"]

/-- C4's fragment with the child line indented by two spaces. -/
def c4goodLines : List Str := [
  ls "Insert (rows=100 width=4)",
  ls "  -> Seq Scan on t1 (cost=0.00..50.00 rows=100 width=4)"]

/-- A node list for instantiating the fixup property: first node with
zero total cost. -/
def c4ens : List ENode := [{}, { totalCost := 50, startupCost := 3, msEnd := 7 }]

/-- C5's input: its only line matches the node shape and has
indentation 2, but contains `QUERY PLAN` so the classifier discards
it. -/
def c5cexLines : List Str := [ls "  QUERY PLAN (rows=1 width=1)"]

/-- An input whose first node line has indentation 3. -/
def c5wLines : List Str := [ls "   x (rows=1 width=1)"]

/-- C3's witness arena: a SubPlan header at (indent 1, offset 1) and
a node at (indent 3, offset 2) right beneath it. -/
def c3nodes : List PNode := [
  { indent := 1, offset := 0, extraInfo := [] },
  { indent := 3, offset := 2, extraInfo := [] }]

def c3plans : List PPlan := [
  { name := ls "Plan", indent := 0, offset := 0 },
  { name := ls "SubPlan 1", indent := 1, offset := 1 }]

/-- C8's node: header plus the claim's analyze-mode annotation line. -/
def c8Node : PNode := { indent := 1, offset := 0, extraInfo := [
  ls " Hash Join  (cost=0.00..862.00 rows=1 width=16)",
  ls "   Rows out:  Avg 1000.0 rows x 4 workers.  Max 900 rows (seg3) with 50 ms to end."] }

/-- Outcome classifier for C6: the parse failed, with the
no-nodes-found error or a handler panic. -/
def isNoNodesOrPanic : Except PErr EState → Bool
  | .error .noNodes => true
  | .error (.panicked _) => true
  | _ => false

/-!
## Theorems
-/

/-- C10: the Settings pattern accepts the line ` Settings: x`: after
the fixed-width prefix strip the remainder is empty, the single piece
of the `"; "` split contains no `=`, and `parseSettings` indexes the
second element of a one-element `"="`-split — a Go index-out-of-range
panic, not a returned error.  The settings handler is not total over
the lines its pattern accepts. -/
theorem claim_c10 :
    settingsTest (ls " Settings: x") = true ∧
    splitOnStr (ls "; ") ((trimSpace (ls " Settings: x")).drop 11) = [[]] ∧
    containsSub (ls "=") [] = false ∧
    parseSettings initPState (ls " Settings: x") =
      .error (.panicked (ls "index out of range")) := by
  with_unfolding_all decide

/-- C9 (code bug): on the non-empty stdin text `hello`, the core
parse fails with the no-nodes-found error, yet `InitFromStdin`
returns success — the source discards the `InitPlan` return value,
contradicting the error-contract that every parse error is returned
to the caller (as `InitFromString`/`InitFromFile` do). -/
theorem claim_c9_bug :
    (ls "hello").length ≠ 0 ∧
    InitPlanText (ls "hello") = .error .noNodes ∧
    InitFromStdin (ls "hello") = .ok () := by
  with_unfolding_all decide

/-- C8 counterexample: for the claim's annotation line the `Max`-rows
shape matches, so the looser actual-rows shape is skipped and
`ActualRows` remains at its `-1` absent sentinel — "actual rows" is
NOT populated, refuting that part of the claim. -/
theorem claim_c8_counterexample :
    (parseNodeExtraInfo c8Node).map (fun n => n.actualRows) = .ok (-1) ∧
    ((-1 : ℚ) = -1) := by
  with_unfolding_all decide

/-- C8 as amended: average rows 1000, workers 4, max rows 900,
completion time 50, max segment `seg3`, analyze-mode flag set; actual
rows remains at the `-1` sentinel; and the data-skew rule appends no
warning (the 10000-row threshold is not reached). -/
theorem claim_c8 :
    (parseNodeExtraInfo c8Node).map (fun n =>
      (n.avgRows, n.workers, n.maxRows, n.msEnd)) = .ok (1000, 4, 900, 50) ∧
    (parseNodeExtraInfo c8Node).map (fun n =>
      (n.maxSeg, n.isAnalyzed, n.actualRows)) = .ok (ls "seg3", true, -1) ∧
    (parseNodeExtraInfo c8Node).map (fun n =>
      (n.warnings, (checkNodeDataSkew n).warnings)) = .ok ([], []) := by
  with_unfolding_all decide

/-- C1 counterexample: on an otherwise valid plan whose settings line
is exactly the claim's `Settings: enable_hashjoin=off; optimizer=on`
(one space after the label), the fixed 11-character prefix strip of
`parseSettings` eats the leading `e` of the first setting name: the
Settings list holds `nable_hashjoin`→`off` (not the claimed
`enable_hashjoin`→`off`), and the non-default-GUC rule — whose
`enable_` pattern no longer matches — appends no plan-level warning
at all. -/
theorem claim_c1_counterexample :
    (InitPlan c1badLines).map (fun e => (e.settings, e.optimizer, e.warnings)) =
      .ok ([⟨ls "nable_hashjoin", ls "off"⟩, ⟨ls "optimizer", ls "on"⟩],
           ls "on", []) ∧
    ([⟨ls "nable_hashjoin", ls "off"⟩, ⟨ls "optimizer", ls "on"⟩] :
      List Setting) ≠
      [⟨ls "enable_hashjoin", ls "off"⟩, ⟨ls "optimizer", ls "on"⟩] := by
  with_unfolding_all decide

/-- C1 as amended: with the settings line in the source's expected
layout ` Settings:  enable_hashjoin=off; optimizer=on` (two spaces
after the label, matching the 11-character strip), the Settings list
is exactly enable_hashjoin→off then optimizer→on in that order, the
optimizer-mode field is `on`, and the non-default-GUC rule appends
exactly one plan-level warning, which names `enable_hashjoin`. -/
theorem claim_c1 :
    (InitPlan c1goodLines).map (fun e => (e.settings, e.optimizer)) =
      .ok ([⟨ls "enable_hashjoin", ls "off"⟩, ⟨ls "optimizer", ls "on"⟩],
           ls "on") ∧
    (InitPlan c1goodLines).map (fun e => e.warnings) =
      .ok [⟨ls "\"enable_hashjoin\" GUC has non-default value \"off\"",
            ls "Check if \"enable_hashjoin\" GUC is required"⟩] ∧
    containsSub (ls "enable_hashjoin")
      (ls "\"enable_hashjoin\" GUC has non-default value \"off\"") = true := by
  with_unfolding_all decide

/-- C4 counterexample: the literal second line of the claim's
fragment, `-> Seq Scan on t1 (...)`, begins with a dash, so the
classifier discards it as separator noise.  The parse succeeds with a
single node and the fixup does not run (it needs a second node): the
root's total cost is 0 after `InitPlan`, not the claimed 50.00. -/
theorem claim_c4_counterexample :
    (InitPlan c4badLines).map (fun e =>
      (e.nodes.length, (nodeAtE e.nodes 0).totalCost)) = .ok (1, 0) ∧
    ((0 : ℚ) ≠ 50) := by
  with_unfolding_all decide

/-- C4 as amended: whenever the extracted node list has a zero-cost
first node and at least two nodes, the insert-node fixup replaces the
first node's total cost, startup cost, completion time, start-offset
time and analyzed flag by the second node's (and `InitPlan` applies
this fixup before the roll-up loop); in particular, for the claim's
fragment with the child line indented by two spaces (as the
indentation contract requires), the root's total cost is 50.00 and
its startup cost 0.00 after `InitPlan`. -/
theorem claim_c4 :
    (∀ ens : List ENode, (nodeAtE ens 0).totalCost = 0 → 2 ≤ ens.length →
      fixupInsert ens = ens.set 0
        { nodeAtE ens 0 with
          totalCost := (nodeAtE ens 1).totalCost,
          startupCost := (nodeAtE ens 1).startupCost,
          msEnd := (nodeAtE ens 1).msEnd,
          msOffset := (nodeAtE ens 1).msOffset,
          isAnalyzed := (nodeAtE ens 1).isAnalyzed }) ∧
    (InitPlan c4goodLines).map (fun e =>
      ((nodeAtE e.nodes 0).totalCost, (nodeAtE e.nodes 0).startupCost)) =
      .ok (50, 0) := by
  constructor
  · intro ens h0 h2
    simp only [fixupInsert, h0, h2, and_self, if_pos, true_and]
  · with_unfolding_all decide

/-- C4 witness: the fixup property applied to a concrete node list. -/
theorem claim_c4_witness :
    fixupInsert c4ens = c4ens.set 0
      { nodeAtE c4ens 0 with
        totalCost := (nodeAtE c4ens 1).totalCost,
        startupCost := (nodeAtE c4ens 1).startupCost,
        msEnd := (nodeAtE c4ens 1).msEnd,
        msOffset := (nodeAtE c4ens 1).msOffset,
        isAnalyzed := (nodeAtE c4ens 1).isAnalyzed } :=
  claim_c4.1 c4ens (by with_unfolding_all decide) (by with_unfolding_all decide)

/-- C5 counterexample: this input's first (and only) line matching
the node shape has indentation 2, yet parsing does not fail with the
indentation violation: the line contains `QUERY PLAN`, so the
classifier discards it before the node branch and the parse fails
with the no-nodes-found error instead. -/
theorem claim_c5_counterexample :
    firstNodeShapeLine c5cexLines = some (ls "  QUERY PLAN (rows=1 width=1)") ∧
    1 < getIndent (ls "  QUERY PLAN (rows=1 width=1)") ∧
    InitPlan c5cexLines = .error .noNodes ∧
    InitPlan c5cexLines ≠
      .error (.badFirstIndent (ls "  QUERY PLAN (rows=1 width=1)")) := by
  with_unfolding_all decide

/-- C6 counterexample: the input ` Settings: x` contains no line
matching the node shape, yet the parse does not return the
no-nodes-found error: the malformed settings line makes the handler
panic first. -/
theorem claim_c6_counterexample :
    nodeTest (checkQuote (ls " Settings: x")) = false ∧
    InitPlan [ls " Settings: x"] = .error (.panicked (ls "index out of range")) ∧
    InitPlan [ls " Settings: x"] ≠ .error .noNodes := by
  with_unfolding_all decide

/-- C7 counterexample: the line `"ab"` is wrapped in a pair of double
quotes (first and last character), but `checkQuote` leaves it
unchanged: the source tests the second-to-last character
(`line[len-2 : len-1]`), not the last, so no stripping occurs and the
claimed result ` ab` is not produced. -/
theorem claim_c7_counterexample :
    (ls "\"ab\"").getD 0 ' ' = '"' ∧ (ls "\"ab\"").getLast? = some '"' ∧
    checkQuote (ls "\"ab\"") = ls "\"ab\"" ∧
    ls "\"ab\"" ≠ ls " ab" := by
  with_unfolding_all decide

theorem foldl_add_eq_sum {α : Type} (f : α → ℚ) (l : List α) (init : ℚ) :
    l.foldl (fun acc x => acc + f x) init = init + (l.map f).sum := by
  induction l generalizing init with
  | nil => simp
  | cons a t ih => simp [ih, add_assoc]

theorem clamp_eq_max (x : ℚ) : (if x < 0 then 0 else x) = max 0 x := by
  rcases lt_or_le x 0 with h | h
  · simp [h, max_eq_left h.le]
  · simp [not_lt.mpr h, max_eq_right h]

/-- C2: for every arena and node, the roll-up sets self time to the
node's completion time minus the sum of the completion times of its
direct child nodes only (child plans' top nodes do not contribute to
time), and self cost to the node's total cost minus the sum of the
total costs of its direct child nodes and of its child plans' top
nodes; both differences are clamped to zero when negative. -/
theorem claim_c2 (ns : List ENode) (tr : TreeOut) (i : Nat) :
    (CalculateSubNodeDiff ns tr i).msNode =
      max 0 ((nodeAtE ns i).msEnd -
        ((tr.subNodes.getD i []).map (fun j => (nodeAtE ns j).msEnd)).sum) ∧
    (CalculateSubNodeDiff ns tr i).nodeCost =
      max 0 ((nodeAtE ns i).totalCost -
        (((tr.subNodes.getD i []).map (fun j => (nodeAtE ns j).totalCost)).sum +
         ((tr.subPlans.getD i []).map (planTopCost ns tr)).sum)) := by
  constructor <;>
    simp only [CalculateSubNodeDiff, foldl_add_eq_sum, zero_add, clamp_eq_max]

theorem findRevAux_some {pred : Nat → Bool} :
    ∀ {k p : Nat}, findRevAux pred k = some p → p < k ∧ pred p = true := by
  intro k
  induction k with
  | zero => intro p h; simp [findRevAux] at h
  | succ k ih =>
    intro p h
    rw [findRevAux] at h
    by_cases hp : pred k = true
    · rw [if_pos hp] at h
      cases h
      exact ⟨Nat.lt_succ_self _, hp⟩
    · rw [if_neg hp] at h
      obtain ⟨h1, h2⟩ := ih h
      exact ⟨Nat.lt_succ_of_lt h1, h2⟩

theorem findRevAux_isSome_iff {pred : Nat → Bool} :
    ∀ {k : Nat}, (findRevAux pred k).isSome = true ↔ ∃ j, j < k ∧ pred j = true := by
  intro k
  induction k with
  | zero => simp [findRevAux]
  | succ k ih =>
    rw [findRevAux]
    by_cases hp : pred k = true
    · simp only [if_pos hp, Option.isSome_some, true_iff]
      exact ⟨k, Nat.lt_succ_self _, hp⟩
    · rw [if_neg hp, ih]
      constructor
      · rintro ⟨j, hj, hpj⟩; exact ⟨j, Nat.lt_succ_of_lt hj, hpj⟩
      · rintro ⟨j, hj, hpj⟩
        refine ⟨j, ?_, hpj⟩
        rcases Nat.lt_succ_iff_lt_or_eq.mp hj with h | rfl
        · exact h
        · exact absurd hpj hp

theorem findRevAux_none_iff {pred : Nat → Bool} {k : Nat} :
    findRevAux pred k = none ↔ ∀ j, j < k → pred j = false := by
  rw [← Option.not_isSome_iff_eq_none, findRevAux_isSome_iff]
  push_neg
  constructor
  · intro h j hj
    by_contra hc
    exact h j hj (by simpa using hc)
  · intro h j hj hp
    rw [h j hj] at hp
    cases hp

theorem modifyAt_getD {α : Type} (f : α → α) :
    ∀ (q : Nat) (l : List α) (d : α) (q' : Nat),
      (modifyAt f q l).getD q' d =
        if q' = q ∧ q < l.length then f (l.getD q' d) else l.getD q' d := by
  intro q l
  induction l generalizing q with
  | nil => intro d q'; simp [modifyAt]
  | cons x xs ih =>
    intro d q'
    cases q with
    | zero =>
      cases q' with
      | zero => simp [modifyAt]
      | succ q' => simp [modifyAt]
    | succ q =>
      cases q' with
      | zero => simp [modifyAt]
      | succ q' =>
        simp only [modifyAt, List.getD_cons_succ, List.length_cons, ih]
        by_cases h : q' = q ∧ q < xs.length
        · rw [if_pos h, if_pos ⟨by omega, by omega⟩]
        · rw [if_neg h, if_neg (by omega)]

theorem replicate_getD_mem {n q j : Nat} :
    j ∈ (List.replicate n ([] : List Nat)).getD q [] → False := by
  intro h
  rcases lt_or_le q n with hq | hq
  · rw [List.getD_eq_getElem _ _ (by simpa using hq), List.getElem_replicate] at h
    cases h
  · rw [List.getD_eq_default _ _ (by simpa using hq)] at h
    cases h

/-- Membership in the child-node lists produced by the second pass:
an index appears only if its own iteration classified it as a child
of that parent. -/
theorem buildNodesPass_mem {nodes : List PNode} {plans : List PPlan} :
    ∀ (k : Nat) (tr : TreeOut) (q j : Nat),
      j ∈ (buildNodesPass nodes plans k tr).subNodes.getD q [] →
      j ∈ tr.subNodes.getD q [] ∨ (j < k ∧ nodeDisp nodes plans j = .childOf q) := by
  intro k
  induction k with
  | zero => intro tr q j h; exact .inl h
  | succ k ih =>
    intro tr q j h
    rw [buildNodesPass] at h
    rcases ih _ q j h with h' | ⟨hk, hd⟩
    · rcases hdisp : nodeDisp nodes plans k with p | q' | _ <;> rw [hdisp] at h'
      · exact .inl h'
      · simp only [applyDisp, modifyAt_getD] at h'
        by_cases hcond : q = q' ∧ q' < tr.subNodes.length
        · rw [if_pos hcond] at h'
          rcases List.mem_cons.mp h' with rfl | hmem
          · exact .inr ⟨Nat.lt_succ_self _, by rw [hdisp, hcond.1]⟩
          · exact .inl hmem
        · rw [if_neg hcond] at h'
          exact .inl h'
      · exact .inl h'
    · exact .inr ⟨Nat.lt_succ_of_lt hk, hd⟩

/-- C3: during tree-building (1) a node is bound as some plan's top
node exactly when its indentation equals that plan's indentation plus
2 and its offset equals that plan's offset plus 1; (2) a node so
bound is not attached as a child of any node; (3) a node falls
through to the default branch — which writes it into the implicit
first plan's top slot — exactly when it matches no plan's top-slot
relation and no preceding node (by list position) has strictly
smaller indentation. -/
theorem claim_c3 (nodes : List PNode) (plans : List PPlan) (i : Nat)
    (hi : i < nodes.length) :
    ((∃ p, nodeDisp nodes plans i = .topOf p) ↔
      (∃ p, p < plans.length ∧
        (nodeAtP nodes i).indent = (planAtP plans p).indent + 2 ∧
        (nodeAtP nodes i).offset = (planAtP plans p).offset + 1)) ∧
    ((∃ p, nodeDisp nodes plans i = .topOf p) →
      ∀ q, i ∉ (BuildTree nodes plans).subNodes.getD q []) ∧
    (nodeDisp nodes plans i = .rootDefault ↔
      (¬ ∃ p, p < plans.length ∧
        (nodeAtP nodes i).indent = (planAtP plans p).indent + 2 ∧
        (nodeAtP nodes i).offset = (planAtP plans p).offset + 1) ∧
      (¬ ∃ q, q < i ∧ (nodeAtP nodes q).indent < (nodeAtP nodes i).indent)) := by
  have hslot : (∃ p, nodeDisp nodes plans i = .topOf p) ↔
      (planTopSlot nodes plans i).isSome = true := by
    constructor
    · rintro ⟨p, hp⟩
      unfold nodeDisp at hp
      rcases h : planTopSlot nodes plans i with _ | p'
      · rw [h] at hp
        rcases h2 : nodeParent nodes i with _ | q <;> rw [h2] at hp <;> cases hp
      · simp [h]
    · intro h
      rcases Option.isSome_iff_exists.mp h with ⟨p, hp⟩
      exact ⟨p, by unfold nodeDisp; rw [hp]⟩
  have hcond : (planTopSlot nodes plans i).isSome = true ↔
      (∃ p, p < plans.length ∧
        (nodeAtP nodes i).indent = (planAtP plans p).indent + 2 ∧
        (nodeAtP nodes i).offset = (planAtP plans p).offset + 1) := by
    unfold planTopSlot
    rw [findRevAux_isSome_iff]
    constructor
    · rintro ⟨p, hp, hpred⟩
      rw [decide_eq_true_iff] at hpred
      exact ⟨p, hp, by omega, by omega⟩
    · rintro ⟨p, hp, h1, h2⟩
      exact ⟨p, hp, by rw [decide_eq_true_iff]; omega⟩
  refine ⟨hslot.trans hcond, ?_, ?_⟩
  · rintro ⟨p, hp⟩ q hmem
    rcases buildNodesPass_mem nodes.length _ q i hmem with hbase | ⟨_, hchild⟩
    · exact replicate_getD_mem hbase
    · rw [hp] at hchild; cases hchild
  · unfold nodeDisp
    rcases h : planTopSlot nodes plans i with _ | p
    · rcases h2 : nodeParent nodes i with _ | q
      · simp only [true_iff]
        constructor
        · rw [← hcond]
          simp [h]
        · unfold nodeParent at h2
          rw [findRevAux_none_iff] at h2
          rintro ⟨q, hq, hlt⟩
          have := h2 q hq
          simp only [decide_eq_false_iff_not] at this
          exact this hlt
      · constructor
        · intro hx; cases hx
        · rintro ⟨-, hB⟩
          unfold nodeParent at h2
          obtain ⟨hq, hpred⟩ := findRevAux_some h2
          rw [decide_eq_true_iff] at hpred
          exact absurd ⟨q, hq, hpred⟩ hB
    · constructor
      · intro hx; cases hx
      · rintro ⟨hA, -⟩
        exact absurd (hcond.mp (by simp [h])) hA

/-- C3 witness: in the concrete arena the node at (indent 3, offset
2) sits directly beneath the SubPlan header at (indent 1, offset 1),
is bound as that plan's top, and appears in no node's child list. -/
theorem claim_c3_witness :
    1 ∉ (BuildTree c3nodes c3plans).subNodes.getD 0 [] :=
  (claim_c3 c3nodes c3plans 1 (by with_unfolding_all decide)).2.1
    ⟨1, by with_unfolding_all decide⟩ 0

/-- C7 as amended: the pre-classification step rewrites a line when
its FIRST character and its SECOND-TO-LAST character are double
quotes (and it is longer than 2): it drops the first character and
the last two characters and prepends one space, so for a line of the
form `"<interior>"<c>` (e.g. a trailing carriage return after the
closing quote) the result is ` <interior>`.  A line wrapped in quotes
with nothing after the closing quote does not satisfy the test and is
left unchanged, as is every other line not satisfying it. -/
theorem claim_c7 :
    (∀ (interior : Str) (c : Char),
      checkQuote ('"' :: interior ++ ['"', c]) = ' ' :: interior) ∧
    (∀ l : Str,
      ¬(2 < l.length ∧ l.getD 0 ' ' = '"' ∧ l.getD (l.length - 2) ' ' = '"') →
      checkQuote l = l) := by
  constructor
  · intro interior c
    have hlen : ('"' :: interior ++ ['"', c]).length = interior.length + 3 := by
      simp
    have key : ∀ itr : Str, (itr ++ ['"', c]).getD itr.length ' ' = '"' := by
      intro itr
      induction itr with
      | nil => rfl
      | cons x xs ih => simpa using ih
    have key2 : ∀ itr : Str, (itr ++ ['"', c]).take itr.length = itr := by
      intro itr
      induction itr with
      | nil => rfl
      | cons x xs ih => simpa using ih
    have hcond : 2 < ('"' :: interior ++ ['"', c]).length ∧
        ('"' :: interior ++ ['"', c]).getD 0 ' ' = '"' ∧
        ('"' :: interior ++ ['"', c]).getD
          (('"' :: interior ++ ['"', c]).length - 2) ' ' = '"' := by
      refine ⟨by rw [hlen]; omega, rfl, ?_⟩
      rw [hlen]
      have h1 : interior.length + 3 - 2 = interior.length + 1 := by omega
      rw [h1]
      show ('"' :: (interior ++ ['"', c])).getD (interior.length + 1) ' ' = '"'
      rw [List.getD_cons_succ]
      exact key interior
    rw [checkQuote, if_pos hcond, hlen]
    have h2 : interior.length + 3 - 3 = interior.length := by omega
    rw [h2]
    show ' ' :: (List.drop 1 ('"' :: (interior ++ ['"', c]))).take interior.length = _
    rw [List.drop_one, List.tail_cons, key2]
  · intro l h
    rw [checkQuote, if_neg h]

/-- C7 witness: a quote-wrapped line with a trailing carriage return
is stripped; the plain quote-wrapped line `"ab"` is left unchanged. -/
theorem claim_c7_witness :
    checkQuote ('"' :: ls "a" ++ ['"', '\x0d']) = ' ' :: ls "a" ∧
    checkQuote (ls "\"ab\"") = ls "\"ab\"" :=
  ⟨claim_c7.1 (ls "a") '\x0d',
   claim_c7.2 (ls "\"ab\"") (by with_unfolding_all decide)⟩

theorem foldlM_except_panic {α β : Type} {f : β → α → Except PErr β}
    (hf : ∀ acc x e, f acc x = .error e → ∃ site, e = .panicked site) :
    ∀ (l : List α) (init : β) (e : PErr),
      l.foldlM f init = .error e → ∃ site, e = .panicked site := by
  intro l
  induction l with
  | nil =>
    intro init e h
    rw [List.foldlM_nil] at h
    cases h
  | cons x xs ih =>
    intro init e h
    rw [List.foldlM_cons] at h
    rcases hx : f init x with e' | b
    · rw [hx] at h
      have h2 : (Except.error e' : Except PErr β) = .error e := h
      cases h2
      exact hf _ _ _ hx
    · rw [hx] at h
      have h2 : xs.foldlM f b = .error e := h
      exact ih _ _ h2

theorem parseSettings_err {st : PState} {l : Str} {e : PErr}
    (h : parseSettings st l = .error e) : ∃ site, e = .panicked site := by
  unfold parseSettings at h
  try dsimp only at h
  split at h
  · cases h
    exact ⟨_, rfl⟩
  · refine foldlM_except_panic ?_ _ _ _ h
    intro acc x e' hx
    try dsimp only at hx
    split at hx
    · cases hx
    · cases hx
      exact ⟨_, rfl⟩

theorem parseOptimizer_err {st : PState} {l : Str} {e : PErr}
    (h : parseOptimizer st l = .error e) : ∃ site, e = .panicked site := by
  unfold parseOptimizer at h
  try dsimp only at h
  split at h
  · cases h; exact ⟨_, rfl⟩
  · split at h
    · cases h
    · cases h; exact ⟨_, rfl⟩

theorem parseRuntime_err {st : PState} {l : Str} {e : PErr}
    (h : parseRuntime st l = .error e) : ∃ site, e = .panicked site := by
  unfold parseRuntime at h
  try dsimp only at h
  split at h
  · cases h
  · cases h; exact ⟨_, rfl⟩

theorem nodeBranch_err {off : Nat} {st : PState} {line : Str} {e : PErr}
    (h : nodeBranchStep off st line = .error e) :
    (e = .badFirstIndent line ∧ st.nodes = [] ∧ 1 < getIndent line) ∨
    e = .badIndent line := by
  unfold nodeBranchStep at h
  try dsimp only at h
  split at h
  case isTrue hc =>
    cases h
    simp only [Bool.and_eq_true, List.isEmpty_iff, decide_eq_true_iff] at hc
    exact .inl ⟨rfl, hc.1, by exact_mod_cast hc.2⟩
  case isFalse =>
    split at h
    · cases h; exact .inr rfl
    · cases h

/-- Error analysis of one classifier step: the only returned error
values are the two indentation violations (carrying the offending
line, which the first-node violation only raises at indentation
above 1), and the only other abnormal outcome is a handler panic. -/
theorem parseLineStep_cases {clines : List Str} {off : Nat} {st : PState} {e : PErr}
    (h : parseLineStep clines off st = .error e) :
    (e = .badFirstIndent (clines.getD off []) ∧ st.nodes = [] ∧
      1 < getIndent (clines.getD off []) ∧ nodeTest (clines.getD off []) = true) ∨
    (e = .badIndent (clines.getD off []) ∧ nodeTest (clines.getD off []) = true) ∨
    (∃ site, e = .panicked site) := by
  unfold parseLineStep at h
  try dsimp only at h
  split at h
  · cases h
  · split at h
    case isTrue hnode =>
      rcases nodeBranch_err h with ⟨he, hn, hi⟩ | he
      · exact .inl ⟨he, hn, hi, hnode⟩
      · exact .inr (.inl ⟨he, hnode⟩)
    case isFalse =>
      split at h
      · cases h
      · split at h
        · cases h
        · split at h
          · cases h
          · split at h
            case isTrue =>
              rcases hx : parseSettings st (clines.getD off []) with e' | s <;>
                rw [hx] at h
              · cases h
                exact .inr (.inr (parseSettings_err hx))
              · cases h
            case isFalse =>
              split at h
              case isTrue =>
                rcases hx : parseOptimizer st (clines.getD off []) with e' | s <;>
                  rw [hx] at h
                · cases h
                  exact .inr (.inr (parseOptimizer_err hx))
                · cases h
              case isFalse =>
                split at h
                case isTrue =>
                  rcases hx : parseRuntime st (clines.getD off []) with e' | s <;>
                    rw [hx] at h
                  · cases h
                    exact .inr (.inr (parseRuntime_err hx))
                  · cases h
                case isFalse =>
                  split at h
                  · cases h
                  · cases h

theorem memStatLine_nodes (acc : PState) (l : Str) :
    (memStatLine acc l).nodes = acc.nodes := by
  unfold memStatLine
  split
  · rfl
  · split <;> rfl

theorem foldl_memStat_nodes :
    ∀ (l : List Str) (st : PState), (l.foldl memStatLine st).nodes = st.nodes := by
  intro l
  induction l with
  | nil => intro st; rfl
  | cons x xs ih =>
    intro st
    rw [List.foldl_cons, ih, memStatLine_nodes]

theorem foldlM_except_inv {α β : Type} {f : β → α → Except PErr β} {P : β → Prop}
    (hf : ∀ acc x b, f acc x = .ok b → P acc → P b) :
    ∀ (l : List α) (init b : β), l.foldlM f init = .ok b → P init → P b := by
  intro l
  induction l with
  | nil =>
    intro init b h hp
    rw [List.foldlM_nil] at h
    have h2 : (Except.ok init : Except PErr β) = .ok b := h
    cases h2
    exact hp
  | cons x xs ih =>
    intro init b h hp
    rw [List.foldlM_cons] at h
    rcases hx : f init x with e' | b'
    · rw [hx] at h
      have h2 : (Except.error e' : Except PErr β) = .ok b := h
      cases h2
    · rw [hx] at h
      have h2 : xs.foldlM f b' = .ok b := h
      exact ih _ _ h2 (hf _ _ _ hx hp)

theorem parseSettings_ok_nodes {st st' : PState} {l : Str}
    (h : parseSettings st l = .ok st') : st'.nodes = st.nodes := by
  unfold parseSettings at h
  try dsimp only at h
  split at h
  · cases h
  · refine foldlM_except_inv (P := fun s => s.nodes = st.nodes) ?_ _ _ _ h rfl
    intro acc x b hx hp
    try dsimp only at hx
    split at hx
    · cases hx
      exact hp
    · cases hx

theorem parseOptimizer_ok_nodes {st st' : PState} {l : Str}
    (h : parseOptimizer st l = .ok st') : st'.nodes = st.nodes := by
  unfold parseOptimizer at h
  try dsimp only at h
  split at h
  · cases h
  · split at h
    · cases h; rfl
    · cases h

theorem parseRuntime_ok_nodes {st st' : PState} {l : Str}
    (h : parseRuntime st l = .ok st') : st'.nodes = st.nodes := by
  unfold parseRuntime at h
  try dsimp only at h
  split at h
  · cases h; rfl
  · cases h

/-- When the current line does not match the node shape, a successful
classifier step on a state with no nodes leaves the node list empty. -/
theorem parseLineStep_ok_nonodes {clines : List Str} {off : Nat} {st st' : PState}
    {k : Nat} (h : parseLineStep clines off st = .ok (st', k))
    (hnode : nodeTest (clines.getD off []) = false)
    (hn : st.nodes = []) : st'.nodes = [] := by
  unfold parseLineStep at h
  try dsimp only at h
  split at h
  · cases h; exact hn
  · split at h
    case isTrue ht => rw [ht] at hnode; cases hnode
    case isFalse =>
      split at h
      · cases h; exact hn
      · split at h
        · cases h
          exact hn
        · split at h
          · cases h
            show (parseStatementStats clines off st).1.nodes = []
            unfold parseStatementStats
            rw [foldl_memStat_nodes]
            exact hn
          · split at h
            case isTrue =>
              rcases hx : parseSettings st (clines.getD off []) with e' | s <;>
                rw [hx] at h
              · cases h
              · cases h
                rw [parseSettings_ok_nodes hx]
                exact hn
            case isFalse =>
              split at h
              case isTrue =>
                rcases hx : parseOptimizer st (clines.getD off []) with e' | s <;>
                  rw [hx] at h
                · cases h
                · cases h
                  rw [parseOptimizer_ok_nodes hx]
                  exact hn
              case isFalse =>
                split at h
                case isTrue =>
                  rcases hx : parseRuntime st (clines.getD off []) with e' | s <;>
                    rw [hx] at h
                  · cases h
                  · cases h
                    rw [parseRuntime_ok_nodes hx]
                    exact hn
                case isFalse =>
                  split at h
                  · cases h
                    show ({ st with nodes := appendToLastNode st.nodes _ } : PState).nodes = []
                    rw [hn]
                    rfl
                  · cases h; exact hn

/-- Loop invariant for C6: with no node-shaped line in the input, the
collector either completes with an empty node list or panics in one
of the settings/optimizer/runtime handlers. -/
theorem parseLoopF_no_node :
    ∀ (f : Nat) (clines : List Str) (off : Nat) (st : PState),
      (∀ l ∈ clines, nodeTest l = false) → st.nodes = [] →
      (∃ st', parseLoopF f clines off st = .ok st' ∧ st'.nodes = []) ∨
      (∃ site, parseLoopF f clines off st = .error (.panicked site)) := by
  intro f
  induction f with
  | zero => intro clines off st h hn; exact .inl ⟨st, rfl, hn⟩
  | succ f ih =>
    intro clines off st h hn
    rw [parseLoopF]
    by_cases hoff : off < clines.length
    · rw [if_pos hoff]
      have hmem : clines.getD off [] ∈ clines := by
        rw [List.getD_eq_getElem _ _ (by simpa using hoff)]
        exact List.getElem_mem _
      have hnode := h _ hmem
      rcases hres : parseLineStep clines off st with e | ⟨st', k⟩
      · rcases parseLineStep_cases hres with ⟨_, _, _, ht⟩ | ⟨_, ht⟩ | ⟨site, rfl⟩
        · rw [ht] at hnode; cases hnode
        · rw [ht] at hnode; cases hnode
        · exact .inr ⟨site, rfl⟩
      · exact ih clines (off + 1 + k) st' h (parseLineStep_ok_nonodes hres hnode hn)
    · rw [if_neg hoff]
      exact .inl ⟨st, rfl, hn⟩

theorem parseLines_eq (lines : List Str) :
    parseLines lines =
      parseLoopF ((lines.map checkQuote).length + 1) (lines.map checkQuote) 0
        initPState := rfl

theorem initPlan_err_of_parse {lines : List Str} {e : PErr}
    (h : parseLines lines = .error e) : InitPlan lines = .error e := by
  unfold InitPlan
  rw [h]

/-- C6 as amended: for every input with zero lines matching the node
shape (after quote-stripping), the parse fails and builds no tree;
the outcome is the no-nodes-found error unless a malformed
settings/optimizer-status/total-runtime line makes its handler panic
(index out of range) first, in which case the panic is the outcome. -/
theorem claim_c6 (lines : List Str)
    (h : ∀ l ∈ lines, nodeTest (checkQuote l) = false) :
    isNoNodesOrPanic (InitPlan lines) = true := by
  have h' : ∀ l ∈ lines.map checkQuote, nodeTest l = false := by
    intro l hl
    obtain ⟨x, hx, rfl⟩ := List.mem_map.mp hl
    exact h x hx
  rcases parseLoopF_no_node ((lines.map checkQuote).length + 1) (lines.map checkQuote)
      0 initPState h' rfl with ⟨st', hok, hn⟩ | ⟨site, herr⟩
  · have hp : parseLines lines = .ok st' := by rw [parseLines_eq]; exact hok
    unfold InitPlan
    rw [hp]
    dsimp only
    rw [if_pos (show st'.nodes.length = 0 by rw [hn]; rfl)]
    rfl
  · have hp : parseLines lines = .error (.panicked site) := by
      rw [parseLines_eq]; exact herr
    rw [initPlan_err_of_parse hp]
    rfl

/-- C6 witness: a one-line input with no node-shaped line. -/
theorem claim_c6_witness : isNoNodesOrPanic (InitPlan [ls "hello"]) = true :=
  claim_c6 [ls "hello"] (by with_unfolding_all decide)

theorem getIndent_pos_head {l : Str} (h : 0 < getIndent l) : l.getD 0 ' ' = ' ' := by
  cases l with
  | nil => simp [getIndent] at h
  | cons c t =>
    by_cases hc : c = ' '
    · simpa using hc
    · exfalso
      rw [getIndent, List.takeWhile_cons, if_neg (by simp [hc])] at h
      simp at h

/-- A classifier step on a line that matches neither the node shape
nor any of the five section headers leaves the state's node list
empty and skips no extra lines. -/
theorem parseLineStep_skip {clines : List Str} {off : Nat} {st : PState}
    (hnode : nodeTest (clines.getD off []) = false)
    (h3 : sliceStatsTest (clines.getD off []) = false)
    (h4 : stmtStatsTest (clines.getD off []) = false)
    (h5 : settingsTest (clines.getD off []) = false)
    (h6 : optimizerTest (clines.getD off []) = false)
    (h7 : runtimeTest (clines.getD off []) = false)
    (hn : st.nodes = []) :
    ∃ st', parseLineStep clines off st = .ok (st', 0) ∧ st'.nodes = [] := by
  unfold parseLineStep
  try dsimp only
  split
  · exact ⟨st, rfl, hn⟩
  · rw [hnode, h3, h4, h5, h6, h7]
    simp only [Bool.false_eq_true, if_false]
    split
    · exact ⟨_, rfl, hn⟩
    · split
      · refine ⟨_, rfl, ?_⟩
        show (appendToLastNode st.nodes _ : List PNode) = []
        rw [hn]
        rfl
      · exact ⟨st, rfl, hn⟩

/-- A classifier step that reaches the node branch with an empty node
list and an over-indented, non-discarded line returns the first-node
indentation error carrying that line. -/
theorem parseLineStep_firstNode {clines : List Str} {off : Nat} {st : PState}
    (hnode : nodeTest (clines.getD off []) = true)
    (hblank : decide (trimSpace (clines.getD off []) = []) = false)
    (hqp : containsSub (ls "QUERY PLAN") (clines.getD off []) = false)
    (hind : 1 < getIndent (clines.getD off []))
    (hn : st.nodes = []) :
    parseLineStep clines off st =
      .error (.badFirstIndent (clines.getD off [])) := by
  have hdash : decide ((clines.getD off []).getD 0 ' ' = '-') = false := by
    rw [getIndent_pos_head (by omega)]
    simp
  unfold parseLineStep
  try dsimp only
  rw [show isDiscard (clines.getD off []) = false by
    unfold isDiscard
    rw [hblank, hqp, hdash]
    rfl]
  simp only [Bool.false_eq_true, if_false]
  rw [hnode]
  simp only [if_true]
  unfold nodeBranchStep
  try dsimp only
  rw [if_pos]
  rw [hn]
  simp only [List.isEmpty_nil, Bool.true_and, decide_eq_true_iff]
  exact_mod_cast hind

/-- Running the collector from a state with no nodes over a run of
non-node, non-section lines up to an over-indented node line yields
the first-node indentation error carrying that line. -/
theorem parseLoopF_reach :
    ∀ (kk f : Nat) (clines : List Str) (off : Nat) (st : PState),
      st.nodes = [] →
      (∀ j, j < kk →
        nodeTest (clines.getD (off + j) []) = false ∧
        sliceStatsTest (clines.getD (off + j) []) = false ∧
        stmtStatsTest (clines.getD (off + j) []) = false ∧
        settingsTest (clines.getD (off + j) []) = false ∧
        optimizerTest (clines.getD (off + j) []) = false ∧
        runtimeTest (clines.getD (off + j) []) = false) →
      nodeTest (clines.getD (off + kk) []) = true →
      decide (trimSpace (clines.getD (off + kk) []) = []) = false →
      containsSub (ls "QUERY PLAN") (clines.getD (off + kk) []) = false →
      1 < getIndent (clines.getD (off + kk) []) →
      off + kk < clines.length → kk < f →
      parseLoopF f clines off st =
        .error (.badFirstIndent (clines.getD (off + kk) [])) := by
  intro kk
  induction kk with
  | zero =>
    intro f clines off st hn hpre hnode hblank hqp hind hlen hf
    obtain ⟨f', rfl⟩ : ∃ f', f = f' + 1 := ⟨f - 1, by omega⟩
    rw [parseLoopF, if_pos (by simpa using hlen)]
    rw [show off + 0 = off from rfl] at hnode hblank hqp hind
    rw [parseLineStep_firstNode hnode hblank hqp hind hn]
    rfl
  | succ kk ih =>
    intro f clines off st hn hpre hnode hblank hqp hind hlen hf
    obtain ⟨f', rfl⟩ : ∃ f', f = f' + 1 := ⟨f - 1, by omega⟩
    rw [parseLoopF, if_pos (by omega)]
    obtain ⟨p1, p2, p3, p4, p5, p6⟩ := hpre 0 (by omega)
    rw [show off + 0 = off from rfl] at p1 p2 p3 p4 p5 p6
    obtain ⟨st', hstep, hn'⟩ := parseLineStep_skip p1 p2 p3 p4 p5 p6 hn
    rw [hstep]
    have hshift : ∀ j, off + 1 + j = off + (j + 1) := by omega
    have hres := ih f' clines (off + 1) st' hn'
      (fun j hj => by rw [hshift j]; exact hpre (j + 1) (by omega))
      (by rw [hshift kk]; exact hnode) (by rw [hshift kk]; exact hblank)
      (by rw [hshift kk]; exact hqp) (by rw [hshift kk]; exact hind)
      (by omega) (by omega)
    rw [show (match (Except.ok (st', 0) : Except PErr (PState × Nat)) with
        | .error e => (.error e : Except PErr PState)
        | .ok (st2, k) => parseLoopF f' clines (off + 1 + k) st2) =
        parseLoopF f' clines (off + 1) st' from rfl]
    rw [hres, hshift kk]

/-- The collector loop returns the first-node indentation error only
carrying a line whose indentation exceeds 1. -/
theorem parseLoopF_badFirst :
    ∀ (f : Nat) (clines : List Str) (off : Nat) (st : PState) (t : Str),
      parseLoopF f clines off st = .error (.badFirstIndent t) →
      1 < getIndent t := by
  intro f
  induction f with
  | zero =>
    intro clines off st t h
    cases h
  | succ f ih =>
    intro clines off st t h
    rw [parseLoopF] at h
    by_cases hoff : off < clines.length
    · rw [if_pos hoff] at h
      rcases hres : parseLineStep clines off st with e | ⟨st', k⟩ <;> rw [hres] at h
      · have h2 : e = .badFirstIndent t := by
          have h3 : (Except.error e : Except PErr PState) = .error (.badFirstIndent t) := h
          cases h3
          rfl
        subst h2
        rcases parseLineStep_cases hres with ⟨he, _, hind, _⟩ | ⟨he, _⟩ | ⟨site, he⟩
        · cases he
          exact hind
        · cases he
        · cases he
      · exact ih clines (off + 1 + k) st' t h
    · rw [if_neg hoff] at h
      cases h

theorem parseNodeExtraInfo_err {pn : PNode} {e : PErr}
    (h : parseNodeExtraInfo pn = .error e) : e = .unableToParse := by
  unfold parseNodeExtraInfo at h
  try dsimp only at h
  split at h
  · cases h; rfl
  · cases h

theorem extractAll_err : ∀ {ns : List PNode} {e : PErr},
    extractAll ns = .error e → e = .unableToParse := by
  intro ns
  induction ns with
  | nil => intro e h; cases h
  | cons p rest ih =>
    intro e h
    rw [extractAll] at h
    rcases h1 : parseNodeExtraInfo p with e1 | n <;> rw [h1] at h
    · cases h
      exact parseNodeExtraInfo_err h1
    · rcases h2 : extractAll rest with e2 | ns2 <;> rw [h2] at h
      · cases h
        exact ih h2
      · cases h

/-- C5 as amended: (1) when the first line the classifier accepts as
a node line has indentation above 1 — that is, some line matches the
node shape after quote-stripping, is not discarded as blank or as a
`QUERY PLAN` header, and no earlier line matches the node shape or
any of the five section-header patterns (which could consume or
panic) — parsing fails with the first-node indentation violation
carrying exactly that line; (2) conversely that error only ever
carries a line of indentation above 1, so it never occurs when the
first node line is indented 0 or 1; (3) its message contains the
offending line's text, trimmed of trailing spaces. -/
theorem claim_c5 :
    (∀ (lines : List Str) (k : Nat),
      k < (lines.map checkQuote).length →
      nodeTest ((lines.map checkQuote).getD k []) = true →
      trimSpace ((lines.map checkQuote).getD k []) ≠ [] →
      containsSub (ls "QUERY PLAN") ((lines.map checkQuote).getD k []) = false →
      1 < getIndent ((lines.map checkQuote).getD k []) →
      (∀ j, j < k →
        nodeTest ((lines.map checkQuote).getD j []) = false ∧
        sliceStatsTest ((lines.map checkQuote).getD j []) = false ∧
        stmtStatsTest ((lines.map checkQuote).getD j []) = false ∧
        settingsTest ((lines.map checkQuote).getD j []) = false ∧
        optimizerTest ((lines.map checkQuote).getD j []) = false ∧
        runtimeTest ((lines.map checkQuote).getD j []) = false) →
      InitPlan lines = .error (.badFirstIndent ((lines.map checkQuote).getD k []))) ∧
    (∀ (lines : List Str) (t : Str),
      InitPlan lines = .error (.badFirstIndent t) → 1 < getIndent t) ∧
    (∀ t : Str, trimRightSpaces t <:+: errText (.badFirstIndent t)) := by
  refine ⟨?_, ?_, ?_⟩
  · intro lines k hk hnode hblank hqp hind hpre
    have hb : decide (trimSpace ((lines.map checkQuote).getD k []) = []) = false := by
      simpa using hblank
    have hres := parseLoopF_reach k ((lines.map checkQuote).length + 1)
      (lines.map checkQuote) 0 initPState rfl
      (fun j hj => by simpa using hpre j hj)
      (by simpa using hnode) (by simpa using hb) (by simpa using hqp)
      (by simpa using hind) (by simpa using hk) (by omega)
    exact initPlan_err_of_parse (by rw [parseLines_eq]; simpa using hres)
  · intro lines t h
    unfold InitPlan at h
    rcases hp : parseLines lines with e | st <;> rw [hp] at h
    · have h2 : e = .badFirstIndent t := by
        have h3 : (Except.error e : Except PErr EState) =
          .error (.badFirstIndent t) := h
        cases h3
        rfl
      subst h2
      rw [parseLines_eq] at hp
      exact parseLoopF_badFirst _ _ _ _ _ hp
    · try dsimp only at h
      split at h
      · simp at h
      · split at h
        next e2 heq =>
          have h4 := extractAll_err heq
          subst h4
          simp at h
        next ens heq => cases h
  · intro t
    exact ⟨ls "Detected wrong indentation on first plan node:\n",
      ls "\n\nRecommend running EXPLAIN again and resubmitting the plan.\nDo not manually adjust the indentation as this will lead to incorrect parsing!\n",
      rfl⟩

/-- C5 witness: a single line of indentation 3 matching the node
shape yields the first-node indentation error carrying that line. -/
theorem claim_c5_witness :
    InitPlan c5wLines = .error (.badFirstIndent (ls "   x (rows=1 width=1)")) := by
  have h := claim_c5.1 c5wLines 0 (by with_unfolding_all decide)
    (by with_unfolding_all decide) (by with_unfolding_all decide)
    (by with_unfolding_all decide) (by with_unfolding_all decide)
    (fun j hj => absurd hj (by omega))
  rw [show (c5wLines.map checkQuote).getD 0 [] = ls "   x (rows=1 width=1)" from by
    with_unfolding_all decide] at h
  exact h
